import Mathlib

/-!
Shallow embedding of `go/vt/tabletserver/query_splitter.go` (package
tabletserver) and proofs about its query-splitting behaviour.

Conventions of the embedding:
* Go machine integers become `Int`/`Nat` with explicit reduction modulo
  `2^64` (or `2^32`) exactly where Go's fixed-width arithmetic wraps.
* Pointer receivers with in-place mutation become explicit state passing:
  each method returns the updated `QuerySplitter` next to its result.
* Go's `(value, error)` returns become `Except GoError _` (with `Option
  GoError` where only the error matters).
* External collaborators (sqltypes values, the sqlparser AST node
  constructors used by this file, the schema engine) are embedded as plain
  data; the SQL printer `sqlparser.String` is an external collaborator with
  no specified equations, so `split` takes it as a `render` parameter.
* IEEE-754 `float64` arithmetic is abstracted as exact rational
  arithmetic (`Rat`); the float branch's control flow depends only on the
  computed interval, which the theorems take as given, so branch structure
  is preserved.
-/

/-- Emulation of sqltypes.Value as used by this file: a column value is
either SQL NULL or carries numeric/bytes content (the real type stores a
type tag plus textual bytes; the constructors here record the parsed
content the splitter observes). -/
inductive Value where
  | null
  | int (i : Int)
  | uint (n : Nat)
  | float (q : Rat)
  | bytes (b : List Nat)
deriving DecidableEq, Repr

/-- Value.IsNull. -/
def Value.isNull : Value → Bool
  | .null => true
  | _ => false

/-- Go native values (`interface{}`) stored in bind-variable maps:
what Value.ToNative produces, and what callers may pre-bind. -/
inductive GoNative where
  | null
  | int (i : Int)
  | uint (n : Nat)
  | float (q : Rat)
  | bytes (b : List Nat)
  | str (s : String)
deriving DecidableEq, Repr

/-- Value.ToNative: convert a Value to its Go native representation. -/
def Value.toNative : Value → GoNative
  | .null => .null
  | .int i => .int i
  | .uint n => .uint n
  | .float q => .float q
  | .bytes b => .bytes b

/-- sqlparser.ColIdent: a case-insensitive SQL column identifier; the
stored string keeps its original case. -/
abbrev ColIdent := String

/-- sqlparser.NewColIdent. -/
def newColIdent (s : String) : ColIdent := s

/-- ColIdent.Equal: case-insensitive comparison. -/
def colIdentEqual (a b : ColIdent) : Bool := a.toLower == b.toLower

/-- ColIdent.IsEmpty. -/
def colIdentIsEmpty (a : ColIdent) : Bool := a == ""

/-- schema.TableColumn (the field this file reads: the column name). -/
structure TableColumn where
  name : ColIdent
deriving DecidableEq, Repr

/-- schema.Index (the field this file reads: the indexed column names). -/
structure Index where
  columns : List ColIdent
deriving DecidableEq, Repr

/-- schema.Table: columns, positions of the primary-key columns inside
`columns`, and the table's indexes (primary and secondary). -/
structure Table where
  columns : List TableColumn
  pkColumns : List Nat
  indexes : List Index
deriving DecidableEq, Repr

/-- Table.GetPKColumn: `t.Columns[t.PKColumns[idx]]`. The source indexes
without a bounds check (a malformed schema would panic); the embedding
totalizes the lookup with defaults, which validated schemas never hit. -/
def Table.getPKColumn (t : Table) (idx : Nat) : TableColumn :=
  t.columns.getD (t.pkColumns.getD idx 0) ⟨""⟩

/-- Go `error` values produced in this file: each `fmt.Errorf` call site
is one constructor (with its format arguments kept structured), and
failures propagated from the external strconv/sqltypes parsers keep the
offending value. -/
inductive GoError where
  | errorf (msg : String)
  | parseFailure (v : Value)
  | splitColumnNotIndexed (col : ColIdent) (t : Table)
deriving DecidableEq, Repr

/-- int64 range bounds. -/
def int64Min : Int := -(2 ^ 63)

/-- Largest int64. -/
def int64Max : Int := 2 ^ 63 - 1

/-- Value.ParseInt64 (strconv.ParseInt of the value's text, base 10,
64 bits): succeeds exactly on numeric content in the int64 range; NULL,
bytes and float text fail to parse as integers. -/
def Value.parseInt64 : Value → Except GoError Int
  | .int i => if int64Min ≤ i ∧ i ≤ int64Max then .ok i else .error (.parseFailure (.int i))
  | .uint n => if (n : Int) ≤ int64Max then .ok (n : Int) else .error (.parseFailure (.uint n))
  | v => .error (.parseFailure v)

/-- Value.ParseUint64 (strconv.ParseUint): succeeds exactly on
non-negative numeric content below 2^64. -/
def Value.parseUint64 : Value → Except GoError Nat
  | .uint n => if n < 2 ^ 64 then .ok n else .error (.parseFailure (.uint n))
  | .int i => if 0 ≤ i ∧ i ≤ int64Max then .ok i.toNat else .error (.parseFailure (.int i))
  | v => .error (.parseFailure v)

/-- strconv.ParseFloat of the value's text (the float64 value is
abstracted as an exact rational). -/
def Value.parseFloat : Value → Except GoError Rat
  | .float q => .ok q
  | .int i => .ok (i : Rat)
  | .uint n => .ok (n : Rat)
  | v => .error (.parseFailure v)

/-- Reduce an unbounded integer to the int64 it denotes under two's
complement wraparound. -/
def wrap64 (x : Int) : Int := (x + 2 ^ 63) % 2 ^ 64 - 2 ^ 63

/-- Go int64 subtraction (wraps on overflow). -/
def isub64 (a b : Int) : Int := wrap64 (a - b)

/-- Go int64 addition (wraps on overflow). -/
def iadd64 (a b : Int) : Int := wrap64 (a + b)

/-- Go int64 multiplication (wraps on overflow). -/
def imul64 (a b : Int) : Int := wrap64 (a * b)

/-- Go int64 division: quotient truncated toward zero; the single
overflowing case `int64Min / -1` wraps back to `int64Min`. Division by
zero panics in Go; the embedding totalizes it as 0 (the constructor's
splitCount clamp keeps every divisor in this file positive). -/
def idiv64 (a b : Int) : Int := wrap64 (Int.tdiv a b)

/-- Go conversion int64 → uint64 (two's complement reinterpretation). -/
def int64ToUint64 (x : Int) : Nat := (x % 2 ^ 64).toNat

/-- Go conversion uint64 → int64 (two's complement reinterpretation). -/
def uint64ToInt64 (n : Nat) : Int :=
  if n < 2 ^ 63 then (n : Int) else (n : Int) - 2 ^ 64

/-- Go uint64 subtraction (wraps below zero). -/
def usub64 (a b : Nat) : Nat := (a + 2 ^ 64 - b) % 2 ^ 64

/-- Go uint64 addition (wraps at 2^64). -/
def uadd64 (a b : Nat) : Nat := (a + b) % 2 ^ 64

/-- Go uint64 multiplication (wraps at 2^64). -/
def umul64 (a b : Nat) : Nat := (a * b) % 2 ^ 64

/-- Go conversion int64 → uint32 (truncation to the low 32 bits). -/
def int64ToUint32 (x : Int) : Nat := (x % 2 ^ 32).toNat

/-- Go uint32 multiplication (wraps at 2^32). -/
def umul32 (a b : Nat) : Nat := (a * b) % 2 ^ 32

/-- binary.BigEndian.PutUint32: the 4-byte big-endian encoding of a
32-bit value. -/
def bigEndian4 (v : Nat) : List Nat :=
  [v / 2 ^ 24 % 256, v / 2 ^ 16 % 256, v / 2 ^ 8 % 256, v % 256]

/-- The sqlparser SQL expression nodes this file constructs or carries:
ComparisonExpr (whose Left is always a bare ColName here and whose Right
a ValArg, kept as its text), AndExpr, ParenExpr, and an uninterpreted
constructor standing for whatever expression the parsed input query
already contained. -/
inductive SQLExpr where
  | comparison (operator : String) (left : ColIdent) (right : String)
  | andExpr (left right : SQLExpr)
  | paren (e : SQLExpr)
  | baseExpr (id : Nat)
deriving DecidableEq, Repr

/-- sqlparser.GreaterEqualStr. -/
def greaterEqualStr : String := ">="

/-- sqlparser.LessThanStr. -/
def lessThanStr : String := "<"

/-- sqlparser.WhereStr. -/
def whereStr : String := "where"

/-- sqlparser.Where: type tag plus expression. -/
structure WhereNode where
  type : String
  expr : SQLExpr
deriving DecidableEq, Repr

/-- The simple table expressions this file distinguishes: a plain table
name (from which sqlparser.GetTableName recovers the name) or anything
else (sub-query / qualified name), for which GetTableName is empty. -/
inductive SimpleTableExpr where
  | tableName (name : String)
  | subquery (id : Nat)
deriving DecidableEq, Repr

/-- sqlparser.TableExpr: a plain aliased table expression, or any other
FROM item (join, paren expression, ...) that is not an
AliasedTableExpr. -/
inductive TableExpr where
  | aliased (expr : SimpleTableExpr)
  | joined (id : Nat)
deriving DecidableEq, Repr

/-- sqlparser.GetTableName: the table's name when the expression is a
plain (unqualified) table name, the empty identifier otherwise. -/
def getTableName : SimpleTableExpr → String
  | .tableName n => n
  | .subquery _ => ""

/-- sqlparser.Select, restricted to the fields this file reads or
writes (the projection list is never touched and is omitted). Go nil
slices/pointers for GROUP BY, HAVING, ORDER BY, LIMIT and WHERE are
`none`. -/
structure Select where
  distinct : String
  from_ : List TableExpr
  where_ : Option WhereNode
  groupBy : Option Unit
  having : Option WhereNode
  orderBy : Option Unit
  limit : Option Unit
  lock : String
deriving DecidableEq, Repr

/-- sqlparser.Statement: a Select or any other statement kind. -/
inductive SQLStatement where
  | selectStmt (s : Select)
  | otherStmt (id : Nat)
deriving DecidableEq, Repr

/-- sqltypes.Result, restricted to the field this file reads. -/
structure SQLResult where
  rows : List (List Value)
deriving DecidableEq, Repr

/-- A Go bind-variable map `map[string]interface{}`, modelled
extensionally as a lookup function. -/
def BindMap : Type := String → Option GoNative

/-- Go map assignment `m[k] = v`. -/
def bindInsert (m : BindMap) (k : String) (v : GoNative) : BindMap :=
  fun q => if q = k then some v else m q

/-- An empty Select: the zero value standing for the nil `*Select`
pointer held by a QuerySplitter before validateQuery has run (split's
contract requires validateQuery to have succeeded first). -/
def emptySelect : Select :=
  { distinct := "", from_ := [], where_ := none, groupBy := none,
    having := none, orderBy := none, limit := none, lock := "" }

/-- Modelled from the spec: the closed classification of a column's
scalar type that splitBoundaries dispatches on — the spec fixes it as
the "closed enumeration over {signed, unsigned, float, binary,
unsupported}" computed by the (external) sqltypes.IsSigned /
IsUnsigned / IsFloat / IsBinary predicates over querypb.Type. -/
inductive ColumnType where
  | signed
  | unsigned
  | float
  | binary
  | other
deriving DecidableEq, Repr

/-- QuerySplitter: the splitting session's state. The schema engine
collaborator is its table-lookup function. -/
structure QuerySplitter where
  sql : String
  bindVariables : BindMap
  splitCount : Int
  se : String → Option Table
  sel : Select
  tableName : String
  splitColumn : ColIdent
  rowCount : Int

/-- startBindVarName. -/
def startBindVarName : String := "_splitquery_start"

/-- endBindVarName. -/
def endBindVarName : String := "_splitquery_end"

/-- NewQuerySplitter: creates a QuerySplitter; a splitCount below 1 is
set to 1. -/
def NewQuerySplitter (sql : String) (bindVariables : BindMap)
    (splitColumn : String) (splitCount : Int) (se : String → Option Table) :
    QuerySplitter :=
  let splitCount := if splitCount < 1 then 1 else splitCount
  { sql := sql, bindVariables := bindVariables, splitCount := splitCount,
    se := se, sel := emptySelect, tableName := "",
    splitColumn := newColIdent splitColumn, rowCount := 0 }

/-- querytypes.QuerySplit: one produced split. -/
structure QuerySplit where
  sql : String
  bindVariables : BindMap
  rowCount : Int

/-- QuerySplitter.validateQuery. The parse of `qs.sql` is performed by
the external sqlparser collaborator, so the parse result is taken as an
argument; everything after the parse follows the source line by line.
Returns the updated splitter (the source mutates `qs.sel`,
`qs.tableName` and `qs.splitColumn` in place, including on paths that
then fail) and the error, if any. -/
def QuerySplitter.validateQuery (qs : QuerySplitter)
    (parsed : Except GoError SQLStatement) : QuerySplitter × Option GoError :=
  match parsed with
  | .error e => (qs, some e)
  | .ok (.otherStmt _) => (qs, some (.errorf "not a select statement"))
  | .ok (.selectStmt sel) =>
    let qs1 : QuerySplitter := { qs with sel := sel }
    if sel.distinct != "" || sel.groupBy != none ||
        sel.having != none || sel.from_.length != 1 ||
        sel.orderBy != none || sel.limit != none ||
        sel.lock != "" then
      (qs1, some (.errorf "unsupported query"))
    else
      match sel.from_.headD (.joined 0) with
      | .joined _ => (qs1, some (.errorf "unsupported query"))
      | .aliased node =>
        let qs2 : QuerySplitter := { qs1 with tableName := getTableName node }
        if qs2.tableName == "" then
          (qs2, some (.errorf "not a simple table expression"))
        else
          match qs2.se qs2.tableName with
          | none => (qs2, some (.errorf "can't find table in schema"))
          | some table =>
            if table.pkColumns.length == 0 then
              (qs2, some (.errorf "no primary keys"))
            else if !colIdentIsEmpty qs2.splitColumn then
              if table.indexes.any
                  (fun ix => ix.columns.any (fun c => colIdentEqual qs2.splitColumn c)) then
                (qs2, none)
              else
                (qs2, some (.splitColumnNotIndexed qs2.splitColumn table))
            else
              ({ qs2 with splitColumn := (table.getPKColumn 0).name }, none)

/-- QuerySplitter.getWhereClause: the range predicate for one
(start, end) boundary pair, together with the updated bind-variable
map. -/
def QuerySplitter.getWhereClause (qs : QuerySplitter)
    (whereClause : Option WhereNode) (bindVars : BindMap)
    (start end_ : Value) : Option WhereNode × BindMap :=
  if start.isNull && end_.isNull then
    (whereClause, bindVars)
  else
    let pk : ColIdent := qs.splitColumn
    let startClause : Option SQLExpr :=
      if start.isNull then none
      else some (.comparison greaterEqualStr pk (":" ++ startBindVarName))
    let bindVars1 : BindMap :=
      if start.isNull then bindVars
      else bindInsert bindVars startBindVarName start.toNative
    let endClause : Option SQLExpr :=
      if end_.isNull then none
      else some (.comparison lessThanStr pk (":" ++ endBindVarName))
    let bindVars2 : BindMap :=
      if end_.isNull then bindVars1
      else bindInsert bindVars1 endBindVarName end_.toNative
    let clauses : SQLExpr :=
      match startClause, endClause with
      | none, some e => e
      | some s, none => s
      | some s, some e => .andExpr s e
      | none, none => .baseExpr 0
    let clauses2 : SQLExpr :=
      match whereClause with
      | none => clauses
      | some w => .andExpr (.paren w.expr) (.paren clauses)
    (some { type := whereStr, expr := clauses2 }, bindVars2)

/-- The guard shared by the three numeric boundary functions:
`pkMinMax == nil || len(pkMinMax.Rows) != 1 ||
pkMinMax.Rows[0][0].IsNull() || pkMinMax.Rows[0][1].IsNull()`. -/
def minMaxDegenerate (pkMinMax : Option SQLResult) : Bool :=
  match pkMinMax with
  | none => true
  | some r =>
    r.rows.length != 1 ||
      (((r.rows.getD 0 []).getD 0 Value.null).isNull) ||
      (((r.rows.getD 0 []).getD 1 Value.null).isNull)

/-- QuerySplitter.splitBoundariesIntColumn. sqltypes.BuildValue on an
int64 cannot fail, so its dead error branch collapses into the direct
Value construction. On `interval == 0` the source executes
`return nil, err` where `err` is the nil error of the preceding
successful parse: that is `(qs, .ok [])` here. -/
def QuerySplitter.splitBoundariesIntColumn (qs : QuerySplitter)
    (pkMinMax : Option SQLResult) : QuerySplitter × Except GoError (List Value) :=
  if minMaxDegenerate pkMinMax then (qs, .ok [])
  else
    let row := ((pkMinMax.getD ⟨[]⟩).rows.getD 0 [])
    match (row.getD 0 Value.null).parseInt64 with
    | .error e => (qs, .error e)
    | .ok min =>
      match (row.getD 1 Value.null).parseInt64 with
      | .error e => (qs, .error e)
      | .ok max =>
        let interval : Int := idiv64 (isub64 max min) qs.splitCount
        if interval = 0 then (qs, .ok [])
        else
          let qs' : QuerySplitter := { qs with rowCount := interval }
          (qs', .ok ((List.range' 1 (qs'.splitCount - 1).toNat).map
            (fun i : Nat => Value.int (iadd64 min (imul64 interval (i : Int))))))

/-- QuerySplitter.splitBoundariesUintColumn: the same algorithm in
uint64 arithmetic. -/
def QuerySplitter.splitBoundariesUintColumn (qs : QuerySplitter)
    (pkMinMax : Option SQLResult) : QuerySplitter × Except GoError (List Value) :=
  if minMaxDegenerate pkMinMax then (qs, .ok [])
  else
    let row := ((pkMinMax.getD ⟨[]⟩).rows.getD 0 [])
    match (row.getD 0 Value.null).parseUint64 with
    | .error e => (qs, .error e)
    | .ok min =>
      match (row.getD 1 Value.null).parseUint64 with
      | .error e => (qs, .error e)
      | .ok max =>
        let sc : Nat := int64ToUint64 qs.splitCount
        let interval : Nat := usub64 max min / sc
        if interval = 0 then (qs, .ok [])
        else
          let qs' : QuerySplitter := { qs with rowCount := uint64ToInt64 interval }
          (qs', .ok ((List.range' 1 (sc - 1)).map
            (fun i => Value.uint (uadd64 min (umul64 interval i)))))

/-- Truncation toward zero of a rational: Go's float64 → int64
conversion on an in-range value. -/
def ratTrunc (q : Rat) : Int := Int.tdiv q.num (q.den : Int)

/-- QuerySplitter.splitBoundariesFloatColumn: the same algorithm with
the min/max parsed from their textual representation as float64 values
(abstracted as exact rationals). -/
def QuerySplitter.splitBoundariesFloatColumn (qs : QuerySplitter)
    (pkMinMax : Option SQLResult) : QuerySplitter × Except GoError (List Value) :=
  if minMaxDegenerate pkMinMax then (qs, .ok [])
  else
    let row := ((pkMinMax.getD ⟨[]⟩).rows.getD 0 [])
    match (row.getD 0 Value.null).parseFloat with
    | .error e => (qs, .error e)
    | .ok min =>
      match (row.getD 1 Value.null).parseFloat with
      | .error e => (qs, .error e)
      | .ok max =>
        let interval : Rat := (max - min) / (qs.splitCount : Rat)
        if interval = 0 then (qs, .ok [])
        else
          let qs' : QuerySplitter := { qs with rowCount := ratTrunc interval }
          (qs', .ok ((List.range' 1 (qs'.splitCount - 1).toNat).map
            (fun i : Nat => Value.float (min + interval * (i : Rat)))))

/-- QuerySplitter.splitBoundariesStringColumn: consults no min/max;
partitions the fixed 32-bit space. sqltypes.BuildValue on a []byte
cannot fail, so its dead error branch collapses into the direct Value
construction. -/
def QuerySplitter.splitBoundariesStringColumn (qs : QuerySplitter) :
    QuerySplitter × Except GoError (List Value) :=
  let splitRange : Int := 0xFFFFFFFF + 1
  let splitSize : Int := idiv64 splitRange qs.splitCount
  let qs' : QuerySplitter := { qs with rowCount := splitSize }
  (qs', .ok ((List.range' 1 (qs'.splitCount - 1).toNat).map
    (fun i : Nat => Value.bytes (bigEndian4 (umul32 (int64ToUint32 splitSize) (int64ToUint32 (i : Int)))))))

/-- QuerySplitter.splitBoundaries: dispatch on the column's scalar type
family. -/
def QuerySplitter.splitBoundaries (qs : QuerySplitter)
    (columnType : ColumnType) (pkMinMax : Option SQLResult) :
    QuerySplitter × Except GoError (List Value) :=
  match columnType with
  | .signed => qs.splitBoundariesIntColumn pkMinMax
  | .unsigned => qs.splitBoundariesUintColumn pkMinMax
  | .float => qs.splitBoundariesFloatColumn pkMinMax
  | .binary => qs.splitBoundariesStringColumn
  | .other => (qs, .ok [])

/-- The boundary walk inside QuerySplitter.split: for each end value, a
fresh copy of the original bind variables is made (copying a Go map
yields a map with identical contents: the lookup function itself),
getWhereClause installs the range predicate, the statement is rendered
with the substituted WHERE clause, and the walk continues with
`start := end`. -/
def QuerySplitter.splitLoop (qs : QuerySplitter) (render : Select → String)
    (whereClause : Option WhereNode) (start : Value) :
    List Value → List QuerySplit
  | [] => []
  | end_ :: rest =>
    let bindVars : BindMap := qs.bindVariables
    let res := qs.getWhereClause whereClause bindVars start end_
    { sql := render { qs.sel with where_ := res.1 },
      bindVariables := res.2,
      rowCount := qs.rowCount } :: qs.splitLoop render whereClause end_ rest

/-- QuerySplitter.split. `render` is the external sqlparser.String
printer. Returns the updated splitter next to the split list or error;
in the boundary-walk branch the source's in-place WHERE mutation is
rendered per iteration and restored afterward (`qs.sel.Where =
whereClause`). -/
def QuerySplitter.split (qs : QuerySplitter) (render : Select → String)
    (columnType : ColumnType) (pkMinMax : Option SQLResult) :
    QuerySplitter × Except GoError (List QuerySplit) :=
  match qs.splitBoundaries columnType pkMinMax with
  | (qs1, .error e) => (qs1, .error e)
  | (qs1, .ok boundaries) =>
    if boundaries.length = 0 then
      (qs1, .ok [{ sql := qs1.sql, bindVariables := qs1.bindVariables, rowCount := 0 }])
    else
      let boundaries2 := boundaries ++ [Value.null]
      let whereClause := qs1.sel.where_
      let splits := qs1.splitLoop render whereClause Value.null boundaries2
      ({ qs1 with sel := { qs1.sel with where_ := whereClause } }, .ok splits)

/-! ## Helper lemmas -/

theorem pow63_int : (2 : Int) ^ 63 = 9223372036854775808 := by norm_num

theorem pow64_int : (2 : Int) ^ 64 = 18446744073709551616 := by norm_num

theorem pow64_nat : (2 : Nat) ^ 64 = 18446744073709551616 := by norm_num

theorem pow63_nat : (2 : Nat) ^ 63 = 9223372036854775808 := by norm_num

theorem wrap64_eq_self {x : Int} (h1 : -(2 ^ 63) ≤ x) (h2 : x < 2 ^ 63) :
    wrap64 x = x := by
  unfold wrap64
  have ha : 0 ≤ x + 2 ^ 63 := by simp only [pow63_int] at *; omega
  have hb : x + 2 ^ 63 < 2 ^ 64 := by simp only [pow63_int, pow64_int] at *; omega
  rw [Int.emod_eq_of_lt ha hb]
  omega

theorem select_eta (s : Select) : ({ s with where_ := s.where_ } : Select) = s := rfl

/-- splitBoundaries only ever updates the splitter's rowCount: every
other field of the returned splitter equals its input value. -/
theorem splitBoundaries_fst_fields (qs : QuerySplitter) (t : ColumnType)
    (r : Option SQLResult) :
    ((qs.splitBoundaries t r).1).sel = qs.sel ∧
    ((qs.splitBoundaries t r).1).sql = qs.sql ∧
    ((qs.splitBoundaries t r).1).bindVariables = qs.bindVariables ∧
    ((qs.splitBoundaries t r).1).splitCount = qs.splitCount ∧
    ((qs.splitBoundaries t r).1).splitColumn = qs.splitColumn := by
  cases t <;>
    simp only [QuerySplitter.splitBoundaries, QuerySplitter.splitBoundariesIntColumn,
      QuerySplitter.splitBoundariesUintColumn, QuerySplitter.splitBoundariesFloatColumn,
      QuerySplitter.splitBoundariesStringColumn] <;>
    (repeat' split) <;> simp_all

/-! ## C3 -/

/-- C3: for every validated statement and every boundary list, after
split returns (successfully or not, with empty or non-empty boundaries)
the parsed statement's WHERE clause field — indeed the whole statement
tree — equals its value before the call, so re-rendering the statement
after split yields the same text as before. -/
theorem C3_where_clause_restored (qs : QuerySplitter) (render : Select → String)
    (t : ColumnType) (res : Option SQLResult) :
    ((qs.split render t res).1).sel = qs.sel ∧
    ∀ render2 : Select → String,
      render2 ((qs.split render t res).1).sel = render2 qs.sel := by
  have hp := (splitBoundaries_fst_fields qs t res).1
  have key : ((qs.split render t res).1).sel = qs.sel := by
    unfold QuerySplitter.split
    rcases hq : qs.splitBoundaries t res with ⟨qs1, r⟩
    rw [hq] at hp
    cases r with
    | error e => simpa using hp
    | ok bs =>
      by_cases hb : bs.length = 0
      · simpa [hb] using hp
      · simp only [hb, if_false]
        simpa [select_eta] using hp
  exact ⟨key, fun render2 => by rw [key]⟩

/-! ## C4 -/

/-- C4: for every start and end value: if both are null the original
WHERE clause and bind map are returned unchanged; if only start is bound
the predicate is `splitColumn >= :_splitquery_start`; if only end is
bound it is `splitColumn < :_splitquery_end`; if both are bound it is
their conjunction; when an original WHERE clause exists the result is
the conjunction of the parenthesized original expression and the
parenthesized range predicate; and the corresponding native values are
registered in the supplied bind-variable map under the two fixed
names. -/
theorem C4_getWhereClause_cases (qs : QuerySplitter) (w : Option WhereNode)
    (m : BindMap) (s e : Value) :
    (s.isNull = true → e.isNull = true → qs.getWhereClause w m s e = (w, m)) ∧
    (s.isNull = false → e.isNull = true →
      qs.getWhereClause w m s e =
        (some { type := whereStr,
                expr :=
                  match w with
                  | none =>
                    SQLExpr.comparison greaterEqualStr qs.splitColumn (":" ++ startBindVarName)
                  | some wn =>
                    SQLExpr.andExpr (SQLExpr.paren wn.expr)
                      (SQLExpr.paren
                        (SQLExpr.comparison greaterEqualStr qs.splitColumn
                          (":" ++ startBindVarName))) },
         bindInsert m startBindVarName s.toNative)) ∧
    (s.isNull = true → e.isNull = false →
      qs.getWhereClause w m s e =
        (some { type := whereStr,
                expr :=
                  match w with
                  | none =>
                    SQLExpr.comparison lessThanStr qs.splitColumn (":" ++ endBindVarName)
                  | some wn =>
                    SQLExpr.andExpr (SQLExpr.paren wn.expr)
                      (SQLExpr.paren
                        (SQLExpr.comparison lessThanStr qs.splitColumn
                          (":" ++ endBindVarName))) },
         bindInsert m endBindVarName e.toNative)) ∧
    (s.isNull = false → e.isNull = false →
      qs.getWhereClause w m s e =
        (some { type := whereStr,
                expr :=
                  match w with
                  | none =>
                    SQLExpr.andExpr
                      (SQLExpr.comparison greaterEqualStr qs.splitColumn
                        (":" ++ startBindVarName))
                      (SQLExpr.comparison lessThanStr qs.splitColumn (":" ++ endBindVarName))
                  | some wn =>
                    SQLExpr.andExpr (SQLExpr.paren wn.expr)
                      (SQLExpr.paren
                        (SQLExpr.andExpr
                          (SQLExpr.comparison greaterEqualStr qs.splitColumn
                            (":" ++ startBindVarName))
                          (SQLExpr.comparison lessThanStr qs.splitColumn
                            (":" ++ endBindVarName)))) },
         bindInsert (bindInsert m startBindVarName s.toNative) endBindVarName
           e.toNative)) := by
  refine ⟨?_, ?_, ?_, ?_⟩ <;> intro h1 h2 <;>
    simp only [QuerySplitter.getWhereClause, h1, h2, Bool.and_self, Bool.and_true,
      Bool.true_and, Bool.and_false, Bool.false_and, if_true, if_false,
      Bool.false_eq_true, ite_false, ite_true] <;>
    first
    | rfl
    | (cases w <;> rfl)

/-- Witness for C4: both bounds set against an existing WHERE clause. -/
theorem C4_witness :
    (NewQuerySplitter "select * from t" (fun _ => none) "id" 4 (fun _ => none)).getWhereClause
        (some { type := whereStr, expr := SQLExpr.baseExpr 7 }) (fun _ => none)
        (Value.int 1) (Value.int 2) =
      (some { type := whereStr,
              expr :=
                SQLExpr.andExpr (SQLExpr.paren (SQLExpr.baseExpr 7))
                  (SQLExpr.paren
                    (SQLExpr.andExpr
                      (SQLExpr.comparison greaterEqualStr "id" (":" ++ startBindVarName))
                      (SQLExpr.comparison lessThanStr "id" (":" ++ endBindVarName)))) },
       bindInsert (bindInsert (fun _ => none) startBindVarName (GoNative.int 1))
         endBindVarName (GoNative.int 2)) := by
  exact (C4_getWhereClause_cases (NewQuerySplitter "select * from t" (fun _ => none) "id" 4
    (fun _ => none)) (some { type := whereStr, expr := SQLExpr.baseExpr 7 })
    (fun _ => none) (Value.int 1) (Value.int 2)).2.2.2 rfl rfl

/-- When the boundary computation yields an empty list without error,
split returns the single original-query split. -/
theorem split_of_boundaries_empty (qs : QuerySplitter) (render : Select → String)
    (t : ColumnType) (res : Option SQLResult) (qs1 : QuerySplitter)
    (h : qs.splitBoundaries t res = (qs1, .ok [])) :
    qs.split render t res =
      (qs1, .ok [{ sql := qs1.sql, bindVariables := qs1.bindVariables, rowCount := 0 }]) := by
  unfold QuerySplitter.split
  rw [h]
  rfl

/-! ## C6 -/

/-- C6 counterexample: for the binary column family the min/max input is
never consulted, so a nil min/max result still produces a non-empty
boundary list (splitCount 2 gives the single boundary 0x80000000),
contradicting the claim's "for every input where the min/max result is
nil … boundary computation returns an empty list". -/
theorem C6_counterexample :
    ((NewQuerySplitter "select * from t" (fun _ => none) "" 2 (fun _ => none)).splitBoundaries
        ColumnType.binary none).2 = .ok [Value.bytes [128, 0, 0, 0]] ∧
    (Except.ok [Value.bytes [128, 0, 0, 0]] : Except GoError (List Value)) ≠ .ok [] := by
  exact ⟨rfl, by simp⟩

/-- C6 as amended: for the three numeric column families, an input whose
min/max result is nil, has a row count other than one, or has a null min
or max value makes boundary computation return an empty list without
error — and likewise every column type outside the four supported
families always does — and split then returns exactly one split whose
SQL text is the original query text and whose bind variables are the
original bind variables, with a zero row-count estimate. -/
theorem C6_amended (qs : QuerySplitter) (render : Select → String) :
    (∀ (t : ColumnType) (res : Option SQLResult),
      (t = ColumnType.signed ∨ t = ColumnType.unsigned ∨ t = ColumnType.float) →
      minMaxDegenerate res = true →
      qs.splitBoundaries t res = (qs, .ok []) ∧
      qs.split render t res =
        (qs, .ok [{ sql := qs.sql, bindVariables := qs.bindVariables, rowCount := 0 }])) ∧
    (∀ res : Option SQLResult,
      qs.splitBoundaries ColumnType.other res = (qs, .ok []) ∧
      qs.split render ColumnType.other res =
        (qs, .ok [{ sql := qs.sql, bindVariables := qs.bindVariables, rowCount := 0 }])) := by
  constructor
  · intro t res ht hdeg
    have hb : qs.splitBoundaries t res = (qs, .ok []) := by
      rcases ht with h | h | h <;> subst h <;>
        simp [QuerySplitter.splitBoundaries, QuerySplitter.splitBoundariesIntColumn,
          QuerySplitter.splitBoundariesUintColumn, QuerySplitter.splitBoundariesFloatColumn,
          hdeg]
    exact ⟨hb, split_of_boundaries_empty qs render t res qs hb⟩
  · intro res
    have hb : qs.splitBoundaries ColumnType.other res = (qs, .ok []) := rfl
    exact ⟨hb, split_of_boundaries_empty qs render ColumnType.other res qs hb⟩

/-- Witness for C6: a degenerate (nil) min/max result on a signed column
collapses to the single original split. -/
theorem C6_witness :
    minMaxDegenerate none = true ∧
    (NewQuerySplitter "q" (fun _ => none) "" 3 (fun _ => none)).split (fun _ => "")
        ColumnType.signed none =
      (NewQuerySplitter "q" (fun _ => none) "" 3 (fun _ => none),
       .ok [{ sql := "q", bindVariables := fun _ => none, rowCount := 0 }]) := by
  refine ⟨rfl, ?_⟩
  exact ((C6_amended (NewQuerySplitter "q" (fun _ => none) "" 3 (fun _ => none))
    (fun _ => "")).1 ColumnType.signed none (Or.inl rfl) rfl).2

/-! ## C9 -/

/-- Whether an Except result is a success. -/
def exceptIsOk {ε α : Type _} : Except ε α → Bool
  | .ok _ => true
  | .error _ => false

/-- The (single) min/max row the boundary functions read. -/
def mmRow (res : Option SQLResult) : List Value := (res.getD ⟨[]⟩).rows.getD 0 []

/-- Input well-formedness for the min/max collaborator result: either
the degenerate guard fires, or both values parse with the column
family's parser (the binary and unsupported families parse nothing). -/
def minMaxParses (t : ColumnType) (res : Option SQLResult) : Bool :=
  match t with
  | .signed => minMaxDegenerate res ||
      (exceptIsOk ((mmRow res).getD 0 Value.null).parseInt64 &&
       exceptIsOk ((mmRow res).getD 1 Value.null).parseInt64)
  | .unsigned => minMaxDegenerate res ||
      (exceptIsOk ((mmRow res).getD 0 Value.null).parseUint64 &&
       exceptIsOk ((mmRow res).getD 1 Value.null).parseUint64)
  | .float => minMaxDegenerate res ||
      (exceptIsOk ((mmRow res).getD 0 Value.null).parseFloat &&
       exceptIsOk ((mmRow res).getD 1 Value.null).parseFloat)
  | .binary => true
  | .other => true

/-- With a split count of 1, every column family's boundary computation
returns an empty boundary list without error (on inputs whose min/max
values parse). -/
theorem splitCount_one_boundaries (qs : QuerySplitter) (t : ColumnType)
    (res : Option SQLResult) (h1 : qs.splitCount = 1)
    (h2 : minMaxParses t res = true) :
    ∃ qs1, qs.splitBoundaries t res = (qs1, .ok []) := by
  cases t
  case signed =>
    by_cases hdeg : minMaxDegenerate res = true
    · exact ⟨qs, by simp [QuerySplitter.splitBoundaries,
        QuerySplitter.splitBoundariesIntColumn, hdeg]⟩
    · simp only [minMaxParses, hdeg, Bool.false_or, Bool.and_eq_true] at h2
      obtain ⟨ha, hb⟩ := h2
      rcases hma : ((mmRow res).getD 0 Value.null).parseInt64 with e | mn
      · rw [hma] at ha; simp [exceptIsOk] at ha
      rcases hmb : ((mmRow res).getD 1 Value.null).parseInt64 with e | mx
      · rw [hmb] at hb; simp [exceptIsOk] at hb
      simp only [QuerySplitter.splitBoundaries, QuerySplitter.splitBoundariesIntColumn,
        hdeg, if_false, mmRow] at *
      rw [hma, hmb]
      simp only [h1]
      by_cases hz : idiv64 (isub64 mx mn) 1 = 0
      · rw [if_pos hz]; exact ⟨qs, rfl⟩
      · rw [if_neg hz]; exact ⟨_, rfl⟩
  case unsigned =>
    by_cases hdeg : minMaxDegenerate res = true
    · exact ⟨qs, by simp [QuerySplitter.splitBoundaries,
        QuerySplitter.splitBoundariesUintColumn, hdeg]⟩
    · simp only [minMaxParses, hdeg, Bool.false_or, Bool.and_eq_true] at h2
      obtain ⟨ha, hb⟩ := h2
      rcases hma : ((mmRow res).getD 0 Value.null).parseUint64 with e | mn
      · rw [hma] at ha; simp [exceptIsOk] at ha
      rcases hmb : ((mmRow res).getD 1 Value.null).parseUint64 with e | mx
      · rw [hmb] at hb; simp [exceptIsOk] at hb
      simp only [QuerySplitter.splitBoundaries, QuerySplitter.splitBoundariesUintColumn,
        hdeg, if_false, mmRow] at *
      rw [hma, hmb]
      simp only [h1]
      by_cases hz : usub64 mx mn / int64ToUint64 1 = 0
      · rw [if_pos hz]; exact ⟨qs, rfl⟩
      · rw [if_neg hz]; exact ⟨_, rfl⟩
  case float =>
    by_cases hdeg : minMaxDegenerate res = true
    · exact ⟨qs, by simp [QuerySplitter.splitBoundaries,
        QuerySplitter.splitBoundariesFloatColumn, hdeg]⟩
    · simp only [minMaxParses, hdeg, Bool.false_or, Bool.and_eq_true] at h2
      obtain ⟨ha, hb⟩ := h2
      rcases hma : ((mmRow res).getD 0 Value.null).parseFloat with e | mn
      · rw [hma] at ha; simp [exceptIsOk] at ha
      rcases hmb : ((mmRow res).getD 1 Value.null).parseFloat with e | mx
      · rw [hmb] at hb; simp [exceptIsOk] at hb
      simp only [QuerySplitter.splitBoundaries, QuerySplitter.splitBoundariesFloatColumn,
        hdeg, if_false, mmRow] at *
      rw [hma, hmb]
      simp only [h1]
      by_cases hz : (mx - mn) / ((1 : Int) : Rat) = 0
      · rw [if_pos hz]; exact ⟨qs, rfl⟩
      · rw [if_neg hz]; exact ⟨_, rfl⟩
  case binary =>
    simp only [QuerySplitter.splitBoundaries, QuerySplitter.splitBoundariesStringColumn, h1]
    exact ⟨_, rfl⟩
  case other => exact ⟨qs, rfl⟩

/-- C9: a requested split count below 1 is stored as 1 by
NewQuerySplitter, and with a stored split count of 1 — for any column
type whose min/max input parses — split returns exactly one split whose
SQL text and bind variables are identical to the original input, with
the row estimate unset (zero). -/
theorem C9_split_count_one :
    (∀ (sql : String) (bv : BindMap) (col : String) (n : Int)
        (se : String → Option Table),
      n < 1 → (NewQuerySplitter sql bv col n se).splitCount = 1) ∧
    (∀ (qs : QuerySplitter) (render : Select → String) (t : ColumnType)
        (res : Option SQLResult),
      qs.splitCount = 1 → minMaxParses t res = true →
      (qs.split render t res).2 =
        .ok [{ sql := qs.sql, bindVariables := qs.bindVariables, rowCount := 0 }]) := by
  constructor
  · intro sql bv col n se h
    simp [NewQuerySplitter, h]
  · intro qs render t res h1 h2
    obtain ⟨qs1, hb⟩ := splitCount_one_boundaries qs t res h1 h2
    have hsql : qs1.sql = qs.sql := by
      have := (splitBoundaries_fst_fields qs t res).2.1
      rw [hb] at this; exact this
    have hbv : qs1.bindVariables = qs.bindVariables := by
      have := (splitBoundaries_fst_fields qs t res).2.2.1
      rw [hb] at this; exact this
    rw [split_of_boundaries_empty qs render t res qs1 hb]
    rw [hsql, hbv]

/-- Witness for C9: a splitter requested with split count 0 stores 1,
and splitting a signed column with count 1 yields the original query. -/
theorem C9_witness :
    (NewQuerySplitter "select * from t" (fun _ => none) "" 0 (fun _ => none)).splitCount = 1 ∧
    ((NewQuerySplitter "select * from t" (fun _ => none) "" 0
        (fun _ => none)).split (fun _ => "rendered") ColumnType.signed
        (some ⟨[[Value.int 0, Value.int 100]]⟩)).2 =
      .ok [{ sql := "select * from t", bindVariables := fun _ => none, rowCount := 0 }] := by
  constructor
  · exact C9_split_count_one.1 "select * from t" (fun _ => none) "" 0 (fun _ => none)
      (by norm_num)
  · exact C9_split_count_one.2
      (NewQuerySplitter "select * from t" (fun _ => none) "" 0 (fun _ => none))
      (fun _ => "rendered") ColumnType.signed (some ⟨[[Value.int 0, Value.int 100]]⟩)
      rfl (by decide)

/-! ## C1 -/

/-- C1 counterexample: signed column, min=5, max=6, splitCount=10. The
computed interval (max-min)/splitCount is zero, yet the boundary
computation returns an empty boundary list with a nil error (the
source's `return nil, err` reuses the nil error of the last successful
parse), and split silently falls back to a single split — no
RangeTooSmallError or any other error is reported. -/
theorem C1_counterexample :
    ((NewQuerySplitter "select * from t" (fun _ => none) "" 10
        (fun _ => none)).splitBoundariesIntColumn
        (some ⟨[[Value.int 5, Value.int 6]]⟩)).2 = .ok [] ∧
    ((NewQuerySplitter "select * from t" (fun _ => none) "" 10
        (fun _ => none)).split (fun _ => "")
        ColumnType.signed (some ⟨[[Value.int 5, Value.int 6]]⟩)).2 =
      .ok [{ sql := "select * from t", bindVariables := fun _ => none, rowCount := 0 }] := by
  exact ⟨rfl, rfl⟩

/-- C1 as amended: for every numeric (signed, unsigned, or float) column
with a well-formed one-row min/max result where the computed interval
(max - min) / splitCount equals zero, the boundary computation returns
an empty boundary list with no error, and split silently falls back to
a single split carrying the original SQL text and bind variables. -/
theorem C1_amended :
    (∀ (qs : QuerySplitter) (render : Select → String) (res : Option SQLResult)
        (mn mx : Int),
      res = some ⟨[[Value.int mn, Value.int mx]]⟩ →
      int64Min ≤ mn → mn ≤ int64Max → int64Min ≤ mx → mx ≤ int64Max →
      idiv64 (isub64 mx mn) qs.splitCount = 0 →
      qs.splitBoundariesIntColumn res = (qs, .ok []) ∧
      qs.split render ColumnType.signed res =
        (qs, .ok [{ sql := qs.sql, bindVariables := qs.bindVariables, rowCount := 0 }])) ∧
    (∀ (qs : QuerySplitter) (render : Select → String) (res : Option SQLResult)
        (mn mx : Nat),
      res = some ⟨[[Value.uint mn, Value.uint mx]]⟩ →
      mn < 2 ^ 64 → mx < 2 ^ 64 →
      usub64 mx mn / int64ToUint64 qs.splitCount = 0 →
      qs.splitBoundariesUintColumn res = (qs, .ok []) ∧
      qs.split render ColumnType.unsigned res =
        (qs, .ok [{ sql := qs.sql, bindVariables := qs.bindVariables, rowCount := 0 }])) ∧
    (∀ (qs : QuerySplitter) (render : Select → String) (res : Option SQLResult)
        (mn mx : Rat),
      res = some ⟨[[Value.float mn, Value.float mx]]⟩ →
      (mx - mn) / (qs.splitCount : Rat) = 0 →
      qs.splitBoundariesFloatColumn res = (qs, .ok []) ∧
      qs.split render ColumnType.float res =
        (qs, .ok [{ sql := qs.sql, bindVariables := qs.bindVariables, rowCount := 0 }])) := by
  refine ⟨?_, ?_, ?_⟩
  · intro qs render res mn mx hres h1 h2 h3 h4 hz
    subst hres
    have hb : qs.splitBoundariesIntColumn
        (some ⟨[[Value.int mn, Value.int mx]]⟩) = (qs, .ok []) := by
      simp [QuerySplitter.splitBoundariesIntColumn, minMaxDegenerate, Value.isNull,
        Value.parseInt64, h1, h2, h3, h4, hz]
    refine ⟨hb, ?_⟩
    exact split_of_boundaries_empty qs render ColumnType.signed _ qs hb
  · intro qs render res mn mx hres h1 h2 hz
    subst hres
    have hb : qs.splitBoundariesUintColumn
        (some ⟨[[Value.uint mn, Value.uint mx]]⟩) = (qs, .ok []) := by
      rw [pow64_nat] at h1 h2
      simp [QuerySplitter.splitBoundariesUintColumn, minMaxDegenerate, Value.isNull,
        Value.parseUint64, pow64_nat, h1, h2, hz]
    refine ⟨hb, ?_⟩
    exact split_of_boundaries_empty qs render ColumnType.unsigned _ qs hb
  · intro qs render res mn mx hres hz
    subst hres
    have hb : qs.splitBoundariesFloatColumn
        (some ⟨[[Value.float mn, Value.float mx]]⟩) = (qs, .ok []) := by
      simp [QuerySplitter.splitBoundariesFloatColumn, minMaxDegenerate, Value.isNull,
        Value.parseFloat, hz]
    refine ⟨hb, ?_⟩
    exact split_of_boundaries_empty qs render ColumnType.float _ qs hb

/-- Witness for C1's amended theorem: min=3, max=4, splitCount=7 on a
signed column gives interval 0 and the silent empty-boundary result. -/
theorem C1_amended_witness :
    idiv64 (isub64 4 3)
      (NewQuerySplitter "s" (fun _ => none) "" 7 (fun _ => none)).splitCount = 0 ∧
    (NewQuerySplitter "s" (fun _ => none) "" 7 (fun _ => none)).splitBoundariesIntColumn
        (some ⟨[[Value.int 3, Value.int 4]]⟩) =
      (NewQuerySplitter "s" (fun _ => none) "" 7 (fun _ => none), .ok []) := by
  refine ⟨rfl, ?_⟩
  exact (C1_amended.1 (NewQuerySplitter "s" (fun _ => none) "" 7 (fun _ => none))
    (fun _ => "") (some ⟨[[Value.int 3, Value.int 4]]⟩) 3 4 rfl
    (by norm_num [int64Min]) (by norm_num [int64Max]) (by norm_num [int64Min])
    (by norm_num [int64Max]) rfl).1

/-! ## C7 -/

theorem getD_range'_map {α : Type _} (f : Nat → α) (k i : Nat) (d : α) (h : i < k) :
    ((List.range' 1 k).map f).getD i d = f (1 + i) := by
  rw [List.getD_eq_getElem?_getD]
  rw [List.getElem?_eq_getElem (by simpa using h)]
  simp [List.getElem_map, List.getElem_range']

theorem toNat_intCast_mod_pow (n k : Nat) :
    (((n : Int)) % (2 : Int) ^ k).toNat = n % 2 ^ k := by
  have h : ((2 : Int) ^ k) = ((2 ^ k : Nat) : Int) := by push_cast; ring
  rw [h, ← Int.natCast_mod, Int.toNat_natCast]

theorem toNat_mod_pow_of_nonneg {x : Int} (hx : 0 ≤ x) (k : Nat) :
    (x % (2 : Int) ^ k).toNat = x.toNat % 2 ^ k := by
  obtain ⟨n, rfl⟩ := Int.eq_ofNat_of_zero_le hx
  rw [toNat_intCast_mod_pow, Int.toNat_natCast]

/-- C7: for every fixed-width binary/string column, boundary computation
ignores any min/max input and produces, for i in 1..splitCount-1, the
big-endian 4-byte encoding of splitSize * i where
splitSize = 2^32 / splitCount by truncating integer division (the
multiplication performed in 32-bit unsigned arithmetic), with the
row-count estimate equal to splitSize. -/
theorem C7_string_boundaries (qs : QuerySplitter) (res res' : Option SQLResult)
    (hsc : 1 ≤ qs.splitCount) :
    qs.splitBoundaries ColumnType.binary res = qs.splitBoundaries ColumnType.binary res' ∧
    (qs.splitBoundaries ColumnType.binary res).1.rowCount =
      Int.tdiv (2 ^ 32) qs.splitCount ∧
    ∃ bs : List Value,
      (qs.splitBoundaries ColumnType.binary res).2 = .ok bs ∧
      bs.length = (qs.splitCount - 1).toNat ∧
      ∀ i : Nat, i < bs.length →
        bs.getD i Value.null =
          Value.bytes
            (bigEndian4 ((Int.tdiv (2 ^ 32) qs.splitCount).toNat * (i + 1) % 2 ^ 32)) := by
  have hq0 : 0 ≤ Int.tdiv (2 ^ 32) qs.splitCount :=
    Int.tdiv_nonneg (by norm_num) (by omega)
  have hq1 : Int.tdiv (2 ^ 32) qs.splitCount ≤ 2 ^ 32 := by
    rw [Int.tdiv_eq_ediv (by norm_num) (by omega)]
    exact Int.ediv_le_self _ (by norm_num)
  have hw : idiv64 (0xFFFFFFFF + 1) qs.splitCount = Int.tdiv (2 ^ 32) qs.splitCount := by
    have h0 : (0xFFFFFFFF + 1 : Int) = 2 ^ 32 := by norm_num
    rw [h0]
    unfold idiv64
    exact wrap64_eq_self (le_trans (by norm_num) hq0)
      (lt_of_le_of_lt hq1 (by norm_num))
  have hw' : idiv64 4294967296 qs.splitCount = Int.tdiv 4294967296 qs.splitCount := by
    have : (4294967296 : Int) = 0xFFFFFFFF + 1 := by norm_num
    rw [this, hw]
    norm_num
  refine ⟨rfl, ?_, ?_⟩
  · show (qs.splitBoundariesStringColumn).1.rowCount = _
    simp only [QuerySplitter.splitBoundariesStringColumn]
    rw [show (0xFFFFFFFF + 1 : Int) = 4294967296 by norm_num, hw']
    norm_num
  · refine ⟨_, rfl, ?_, ?_⟩
    · simp [QuerySplitter.splitBoundaries, QuerySplitter.splitBoundariesStringColumn]
    · intro i hi
      simp only [QuerySplitter.splitBoundaries, QuerySplitter.splitBoundariesStringColumn,
        List.length_map, List.length_range'] at hi ⊢
      rw [getD_range'_map _ _ _ _ hi]
      rw [hw]
      rw [umul32, int64ToUint32, int64ToUint32,
        toNat_mod_pow_of_nonneg hq0, toNat_intCast_mod_pow, ← Nat.mul_mod,
        Nat.add_comm 1 i]

/-- Witness for C7: splitCount 4 on a binary column gives boundaries
0x40000000, 0x80000000, 0xC0000000 and row estimate 2^30. -/
theorem C7_witness :
    1 ≤ (NewQuerySplitter "q" (fun _ => none) "" 4 (fun _ => none)).splitCount ∧
    ((NewQuerySplitter "q" (fun _ => none) "" 4 (fun _ => none)).splitBoundaries
        ColumnType.binary none).1.rowCount = Int.tdiv (2 ^ 32) 4 ∧
    ((NewQuerySplitter "q" (fun _ => none) "" 4 (fun _ => none)).splitBoundaries
        ColumnType.binary none).2 =
      .ok [Value.bytes [64, 0, 0, 0], Value.bytes [128, 0, 0, 0],
        Value.bytes [192, 0, 0, 0]] := by
  refine ⟨by decide, ?_, by rfl⟩
  exact (C7_string_boundaries (NewQuerySplitter "q" (fun _ => none) "" 4 (fun _ => none))
    none none (by decide)).2.1

/-! ## C8 -/

theorem int64Max_lit : int64Max = 9223372036854775807 := by norm_num [int64Max]

/-- C8: for every unsigned-integer column input — a splitter whose split
count satisfies the constructor's int64 invariant (1 ≤ splitCount ≤
int64Max) and a well-formed min/max result (min ≤ max) — the boundary
computation never divides by zero (the uint64 divisor splitCount is
non-zero) and none of its uint64 operations wrap: the subtraction
max - min, the interval multiplications and the boundary additions all
equal their exact mathematical values, so the computed boundary list is
exactly min + interval*i for i in 1..splitCount-1 (unless the interval
is zero, in which case the zero-interval check fires before the
interval is ever used). -/
theorem C8_uint_no_wrap (qs : QuerySplitter) (res : Option SQLResult) (mn mx : Nat)
    (hres : res = some ⟨[[Value.uint mn, Value.uint mx]]⟩)
    (hmn : mn < 2 ^ 64) (hmx : mx < 2 ^ 64) (hle : mn ≤ mx)
    (hsc1 : 1 ≤ qs.splitCount) (hsc2 : qs.splitCount ≤ int64Max) :
    int64ToUint64 qs.splitCount ≠ 0 ∧
    usub64 mx mn = mx - mn ∧
    (∀ i : Nat, i < int64ToUint64 qs.splitCount →
      umul64 ((mx - mn) / int64ToUint64 qs.splitCount) i =
        (mx - mn) / int64ToUint64 qs.splitCount * i ∧
      uadd64 mn (umul64 ((mx - mn) / int64ToUint64 qs.splitCount) i) =
        mn + (mx - mn) / int64ToUint64 qs.splitCount * i) ∧
    ((qs.splitBoundariesUintColumn res).2 =
        .ok ((List.range' 1 (int64ToUint64 qs.splitCount - 1)).map
          (fun i => Value.uint (mn + (mx - mn) / int64ToUint64 qs.splitCount * i))) ∨
      (mx - mn) / int64ToUint64 qs.splitCount = 0) := by
  have e2 : qs.splitCount ≤ 9223372036854775807 := by rw [← int64Max_lit]; exact hsc2
  have hscv : int64ToUint64 qs.splitCount = qs.splitCount.toNat := by
    unfold int64ToUint64
    rw [Int.emod_eq_of_lt (by omega) (by rw [pow64_int]; omega)]
  have hscpos : 1 ≤ qs.splitCount.toNat := by omega
  have hne : int64ToUint64 qs.splitCount ≠ 0 := by omega
  have husub : usub64 mx mn = mx - mn := by
    unfold usub64
    rw [pow64_nat] at hmn hmx ⊢
    omega
  set sc : Nat := int64ToUint64 qs.splitCount with hsc
  set q : Nat := (mx - mn) / sc with hq
  have hqs : q * sc ≤ mx - mn := Nat.div_mul_le_self (mx - mn) sc
  have hmulsub : q * (sc - 1) + q = q * sc := by
    have h : (sc - 1) + 1 = sc := by omega
    calc q * (sc - 1) + q = q * ((sc - 1) + 1) := (Nat.mul_succ q (sc - 1)).symm
    _ = q * sc := by rw [h]
  have harith : ∀ i : Nat, i < sc →
      umul64 q i = q * i ∧ uadd64 mn (umul64 q i) = mn + q * i := by
    intro i hi
    have hqi : q * i ≤ q * (sc - 1) := Nat.mul_le_mul_left q (by omega)
    have hqi2 : q * i ≤ mx - mn :=
      le_trans hqi (le_trans (Nat.le.intro hmulsub) hqs)
    have hsum : mn + q * i ≤ mx := by omega
    have hm : umul64 q i = q * i := by
      unfold umul64
      rw [pow64_nat] at hmx ⊢
      exact Nat.mod_eq_of_lt (by omega)
    refine ⟨hm, ?_⟩
    rw [hm]
    unfold uadd64
    rw [pow64_nat] at hmx ⊢
    exact Nat.mod_eq_of_lt (by omega)
  refine ⟨hne, husub, harith, ?_⟩
  by_cases hz : q = 0
  · exact Or.inr hz
  · left
    subst hres
    have hdeg : minMaxDegenerate (some ⟨[[Value.uint mn, Value.uint mx]]⟩) = false := rfl
    simp only [QuerySplitter.splitBoundariesUintColumn, hdeg, Bool.false_eq_true,
      if_false, Option.getD_some, List.getD_cons_zero, List.getD_cons_succ,
      Value.parseUint64, hmn, hmx, if_pos]
    rw [husub]
    rw [← hsc, ← hq]
    rw [if_neg hz]
    show Except.ok (List.map (fun i => Value.uint (uadd64 mn (umul64 q i)))
        (List.range' 1 (sc - 1))) =
      Except.ok (List.map (fun i => Value.uint (mn + q * i)) (List.range' 1 (sc - 1)))
    congr 1
    apply List.map_congr_left
    intro a ha
    have hmem : 1 ≤ a ∧ a < 1 + (sc - 1) := by
      have := List.mem_range'_1.mp ha
      exact this
    have := (harith a (by omega)).2
    rw [this]

/-- Witness for C8: min=10, max=110, splitCount=4 — non-zero divisor,
exact subtraction, and exact multiplication/addition at i = 2. -/
theorem C8_witness :
    int64ToUint64 (NewQuerySplitter "q" (fun _ => none) "" 4
      (fun _ => none)).splitCount ≠ 0 ∧
    usub64 110 10 = 110 - 10 ∧
    umul64 ((110 - 10) / int64ToUint64 4) 2 = (110 - 10) / int64ToUint64 4 * 2 ∧
    uadd64 10 (umul64 ((110 - 10) / int64ToUint64 4) 2) =
      10 + (110 - 10) / int64ToUint64 4 * 2 := by
  have h := C8_uint_no_wrap (NewQuerySplitter "q" (fun _ => none) "" 4 (fun _ => none))
    (some ⟨[[Value.uint 10, Value.uint 110]]⟩) 10 110 rfl
    (by norm_num) (by norm_num) (by norm_num) (by decide) (by decide)
  exact ⟨h.1, h.2.1, (h.2.2.1 2 (by decide)).1, (h.2.2.1 2 (by decide)).2⟩

/-! ## C2 -/

theorem int64Min_lit : int64Min = -9223372036854775808 := by norm_num [int64Min]

theorem wrap64_high {x : Int} (h1 : 2 ^ 63 ≤ x) (h2 : x < 2 ^ 64) :
    wrap64 x = x - 2 ^ 64 := by
  unfold wrap64
  rw [pow63_int, pow64_int] at *
  omega

/-- The boundary walk produces one split per boundary value. -/
theorem splitLoop_length (qs : QuerySplitter) (render : Select → String)
    (w : Option WhereNode) (s : Value) (l : List Value) :
    (qs.splitLoop render w s l).length = l.length := by
  induction l generalizing s with
  | nil => rfl
  | cons a t ih => simp [QuerySplitter.splitLoop, ih]

/-- C2: for every signed-integer column with a one-row, non-null
min/max result (with min ≤ max, both in int64 range, and the splitter
satisfying the constructor invariant) such that the computed interval
(max - min) / splitCount (truncating division) is positive, the boundary
list has exactly splitCount - 1 elements with
boundary[i] = min + interval*i for i in 1..splitCount-1, the boundaries
are strictly increasing, the row-count estimate equals the interval, and
split produces exactly splitCount splits. -/
theorem C2_int_boundaries_and_split (qs : QuerySplitter) (render : Select → String)
    (res : Option SQLResult) (mn mx : Int)
    (hres : res = some ⟨[[Value.int mn, Value.int mx]]⟩)
    (hmn : int64Min ≤ mn) (hmx : mx ≤ int64Max) (hle : mn ≤ mx)
    (hsc1 : 1 ≤ qs.splitCount) (hsc2 : qs.splitCount ≤ int64Max)
    (hpos : 0 < idiv64 (isub64 mx mn) qs.splitCount) :
    ∃ bs : List Value,
      (qs.splitBoundariesIntColumn res).2 = .ok bs ∧
      bs.length = (qs.splitCount - 1).toNat ∧
      (∀ i : Nat, i < bs.length →
        bs.getD i Value.null =
          Value.int (mn + idiv64 (isub64 mx mn) qs.splitCount * ((i : Int) + 1))) ∧
      (∀ i : Nat, i + 1 < bs.length →
        ∃ a b : Int, bs.getD i Value.null = Value.int a ∧
          bs.getD (i + 1) Value.null = Value.int b ∧ a < b) ∧
      (qs.splitBoundariesIntColumn res).1.rowCount =
        idiv64 (isub64 mx mn) qs.splitCount ∧
      ∃ splits : List QuerySplit,
        (qs.split render ColumnType.signed res).2 = .ok splits ∧
        splits.length = qs.splitCount.toNat := by
  subst hres
  rw [int64Min_lit] at hmn
  rw [int64Max_lit] at hmx hsc2
  have hmnx : mn ≤ 9223372036854775807 := by omega
  have hmxn : -9223372036854775808 ≤ mx := by omega
  have hpmn : Value.parseInt64 (Value.int mn) = .ok mn := by
    simp [Value.parseInt64, int64Min_lit, int64Max_lit]
    omega
  have hpmx : Value.parseInt64 (Value.int mx) = .ok mx := by
    simp [Value.parseInt64, int64Min_lit, int64Max_lit]
    omega
  -- the wrapped difference cannot be negative-with-positive-quotient,
  -- so a positive interval forces the exact difference to be small
  have hd : mx - mn < 2 ^ 63 := by
    by_contra hcon
    push_neg at hcon
    have hdu : mx - mn < 2 ^ 64 := by rw [pow64_int]; omega
    have hsubhigh : isub64 mx mn = mx - mn - 2 ^ 64 := by
      unfold isub64
      exact wrap64_high hcon hdu
    have ha1 : (0 : Int) ≤ 2 ^ 64 - (mx - mn) := by omega
    have htd : Int.tdiv (mx - mn - 2 ^ 64) qs.splitCount =
        -(Int.tdiv (2 ^ 64 - (mx - mn)) qs.splitCount) := by
      rw [← Int.neg_tdiv]
      congr 1
      omega
    have htd0 : 0 ≤ Int.tdiv (2 ^ 64 - (mx - mn)) qs.splitCount :=
      Int.tdiv_nonneg ha1 (by omega)
    have htdle : Int.tdiv (2 ^ 64 - (mx - mn)) qs.splitCount ≤ 2 ^ 64 - (mx - mn) := by
      rw [Int.tdiv_eq_ediv ha1 (by omega)]
      exact Int.ediv_le_self _ ha1
    have hbound : 2 ^ 64 - (mx - mn) ≤ 2 ^ 63 := by
      rw [pow63_int] at hcon ⊢; rw [pow64_int]; omega
    have hIV : idiv64 (isub64 mx mn) qs.splitCount =
        -(Int.tdiv (2 ^ 64 - (mx - mn)) qs.splitCount) := by
      rw [hsubhigh]
      unfold idiv64
      rw [htd]
      exact wrap64_eq_self (by omega) (by rw [pow63_int] at hbound ⊢; omega)
    rw [hIV] at hpos
    omega
  have hsub : isub64 mx mn = mx - mn := by
    unfold isub64
    exact wrap64_eq_self (by rw [pow63_int] at hd ⊢; omega) hd
  have hq0 : 0 ≤ Int.tdiv (mx - mn) qs.splitCount := Int.tdiv_nonneg (by omega) (by omega)
  have hqle : Int.tdiv (mx - mn) qs.splitCount ≤ mx - mn := by
    rw [Int.tdiv_eq_ediv (by omega) (by omega)]
    exact Int.ediv_le_self _ (by omega)
  have hIV : idiv64 (isub64 mx mn) qs.splitCount = Int.tdiv (mx - mn) qs.splitCount := by
    rw [hsub]
    unfold idiv64
    exact wrap64_eq_self (by omega) (lt_of_le_of_lt hqle hd)
  set q : Int := Int.tdiv (mx - mn) qs.splitCount with hqdef
  have hqpos : 0 < q := by rw [hIV] at hpos; exact hpos
  have hqsc : q * qs.splitCount ≤ mx - mn := by
    rw [hqdef, Int.tdiv_eq_ediv (by omega) (by omega)]
    exact Int.ediv_mul_le _ (by omega)
  have hbound : ∀ j : Int, 0 ≤ j → j ≤ qs.splitCount - 1 →
      imul64 q j = q * j ∧ iadd64 mn (q * j) = mn + q * j ∧ mn + q * j ≤ mx := by
    intro j hj1 hj2
    have hqj : q * j ≤ q * (qs.splitCount - 1) := mul_le_mul_of_nonneg_left hj2 (le_of_lt hqpos)
    have hdist : q * (qs.splitCount - 1) = q * qs.splitCount - q := by ring
    have hqj2 : q * j ≤ mx - mn := by omega
    have hqj0 : 0 ≤ q * j := mul_nonneg (le_of_lt hqpos) hj1
    refine ⟨?_, ?_, by omega⟩
    · unfold imul64
      exact wrap64_eq_self (by rw [pow63_int]; omega)
        (by rw [pow63_int] at hd ⊢; omega)
    · unfold iadd64
      exact wrap64_eq_self (by rw [pow63_int]; omega)
        (by rw [pow63_int] at hd ⊢; omega)
  have hIVne : ¬ idiv64 (isub64 mx mn) qs.splitCount = 0 := by
    rw [hIV]; omega
  have hdeg : minMaxDegenerate (some ⟨[[Value.int mn, Value.int mx]]⟩) = false := rfl
  have heq : qs.splitBoundariesIntColumn (some ⟨[[Value.int mn, Value.int mx]]⟩) =
      ({ qs with rowCount := idiv64 (isub64 mx mn) qs.splitCount },
       .ok ((List.range' 1 (qs.splitCount - 1).toNat).map
         (fun i : Nat =>
           Value.int (iadd64 mn (imul64 (idiv64 (isub64 mx mn) qs.splitCount) (i : Int)))))) := by
    simp only [QuerySplitter.splitBoundariesIntColumn, hdeg, Bool.false_eq_true, if_false,
      Option.getD_some, List.getD_cons_zero, List.getD_cons_succ, hpmn, hpmx]
    rw [if_neg hIVne]
  have helem : ∀ i : Nat, i < (qs.splitCount - 1).toNat →
      ((List.range' 1 (qs.splitCount - 1).toNat).map
        (fun i : Nat =>
          Value.int (iadd64 mn (imul64 (idiv64 (isub64 mx mn) qs.splitCount) (i : Int))))).getD
          i Value.null =
        Value.int (mn + idiv64 (isub64 mx mn) qs.splitCount * ((i : Int) + 1)) := by
    intro i hi
    rw [getD_range'_map _ _ _ _ hi]
    have hj1 : (0 : Int) ≤ ((1 + i : Nat) : Int) := by positivity
    have hj2 : ((1 + i : Nat) : Int) ≤ qs.splitCount - 1 := by
      push_cast
      omega
    obtain ⟨hm, ha, _⟩ := hbound ((1 + i : Nat) : Int) hj1 hj2
    rw [hIV, hm, ha]
    congr 1
    push_cast
    ring
  refine ⟨_, by rw [heq], by simp, ?_, ?_, by rw [heq], ?_⟩
  · intro i hi
    simp only [List.length_map, List.length_range'] at hi
    exact helem i hi
  · intro i hi
    simp only [List.length_map, List.length_range'] at hi
    refine ⟨mn + idiv64 (isub64 mx mn) qs.splitCount * ((i : Int) + 1),
      mn + idiv64 (isub64 mx mn) qs.splitCount * (((i + 1 : Nat) : Int) + 1),
      helem i (by omega), helem (i + 1) (by omega), ?_⟩
    rw [hIV]
    have hlt : ((i : Int) + 1) < (((i + 1 : Nat) : Int) + 1) := by push_cast; omega
    have hmul := mul_lt_mul_of_pos_left hlt hqpos
    omega
  · have heq' : qs.splitBoundaries ColumnType.signed
        (some ⟨[[Value.int mn, Value.int mx]]⟩) =
        ({ qs with rowCount := idiv64 (isub64 mx mn) qs.splitCount },
         .ok ((List.range' 1 (qs.splitCount - 1).toNat).map
           (fun i : Nat =>
             Value.int (iadd64 mn (imul64 (idiv64 (isub64 mx mn) qs.splitCount) (i : Int)))))) :=
      heq
    by_cases h0 : (qs.splitCount - 1).toNat = 0
    · have hA : (qs.split render ColumnType.signed
          (some ⟨[[Value.int mn, Value.int mx]]⟩)).2 =
          .ok [{ sql := qs.sql, bindVariables := qs.bindVariables, rowCount := 0 }] := by
        unfold QuerySplitter.split
        rw [heq']
        simp [h0]
      refine ⟨_, hA, ?_⟩
      simp only [List.length_singleton]
      omega
    · have hA : (qs.split render ColumnType.signed
          (some ⟨[[Value.int mn, Value.int mx]]⟩)).2 =
          .ok (QuerySplitter.splitLoop
            { qs with rowCount := idiv64 (isub64 mx mn) qs.splitCount }
            render qs.sel.where_ Value.null
            (((List.range' 1 (qs.splitCount - 1).toNat).map
              (fun i : Nat =>
                Value.int (iadd64 mn
                  (imul64 (idiv64 (isub64 mx mn) qs.splitCount) (i : Int))))) ++
              [Value.null])) := by
        unfold QuerySplitter.split
        rw [heq']
        simp only [List.length_map, List.length_range']
        rw [if_neg h0]
      refine ⟨_, hA, ?_⟩
      rw [splitLoop_length]
      simp only [List.length_append, List.length_map, List.length_range',
        List.length_singleton]
      omega

/-- Witness for C2 (the claim's Scenario A numbers): min=0, max=100,
splitCount=4 gives boundaries 25, 50, 75, row estimate 25, and 4
splits. -/
theorem C2_witness :
    0 < idiv64 (isub64 100 0)
      (NewQuerySplitter "select * from t" (fun _ => none) "" 4 (fun _ => none)).splitCount ∧
    ((NewQuerySplitter "select * from t" (fun _ => none) "" 4
        (fun _ => none)).splitBoundariesIntColumn
        (some ⟨[[Value.int 0, Value.int 100]]⟩)).2 =
      .ok [Value.int 25, Value.int 50, Value.int 75] ∧
    ((NewQuerySplitter "select * from t" (fun _ => none) "" 4
        (fun _ => none)).splitBoundariesIntColumn
        (some ⟨[[Value.int 0, Value.int 100]]⟩)).1.rowCount = 25 ∧
    ∃ splits : List QuerySplit,
      ((NewQuerySplitter "select * from t" (fun _ => none) "" 4
          (fun _ => none)).split (fun _ => "rendered") ColumnType.signed
          (some ⟨[[Value.int 0, Value.int 100]]⟩)).2 = .ok splits ∧
      splits.length = 4 := by
  have h := C2_int_boundaries_and_split
    (NewQuerySplitter "select * from t" (fun _ => none) "" 4 (fun _ => none))
    (fun _ => "rendered") (some ⟨[[Value.int 0, Value.int 100]]⟩) 0 100 rfl
    (by decide) (by decide) (by decide) (by decide) (by decide) (by decide)
  obtain ⟨bs, h1, h2, h3, h4, h5, splits, h6, h7⟩ := h
  refine ⟨by decide, by rfl, ?_, splits, h6, by exact h7⟩
  rw [h5]
  rfl

/-! ## C5 -/

/-- The claim's validation condition, written from the spec's words (for
the refinement comparison against validateQuery): the input parses as a
SELECT with no DISTINCT, GROUP BY, HAVING, ORDER BY, LIMIT, or lock
clause, exactly one plain aliased table expression with a resolvable
name, a table found in the schema with at least one primary-key column,
and — if a split column was requested — the requested column appearing
in some index. -/
def validateSpecOK (qs : QuerySplitter) (parsed : Except GoError SQLStatement) : Bool :=
  match parsed with
  | .error _ => false
  | .ok (.otherStmt _) => false
  | .ok (.selectStmt sel) =>
    sel.distinct == "" && sel.groupBy == none && sel.having == none &&
    sel.orderBy == none && sel.limit == none && sel.lock == "" &&
    (match sel.from_ with
     | [TableExpr.aliased node] =>
       getTableName node != "" &&
       (match qs.se (getTableName node) with
        | none => false
        | some table =>
          table.pkColumns.length != 0 &&
          (colIdentIsEmpty qs.splitColumn ||
           table.indexes.any
             (fun ix => ix.columns.any (fun c => colIdentEqual qs.splitColumn c))))
     | _ => false)

/-- C5: validateQuery succeeds exactly when the spec's conditions hold
(validateSpecOK); when everything else holds but the requested split
column is in no index, the error is the one naming the column and the
table; and when no split column was requested, success sets the split
column to the table's first primary-key column. -/
theorem C5_validateQuery_iff (qs : QuerySplitter) (parsed : Except GoError SQLStatement) :
    ((qs.validateQuery parsed).2 = none ↔ validateSpecOK qs parsed = true) ∧
    (∀ (sel : Select) (node : SimpleTableExpr) (table : Table),
      parsed = .ok (.selectStmt sel) →
      sel.distinct = "" → sel.groupBy = none → sel.having = none →
      sel.orderBy = none → sel.limit = none → sel.lock = "" →
      sel.from_ = [TableExpr.aliased node] →
      getTableName node ≠ "" →
      qs.se (getTableName node) = some table →
      table.pkColumns ≠ [] →
      qs.splitColumn ≠ "" →
      table.indexes.any
        (fun ix => ix.columns.any (fun c => colIdentEqual qs.splitColumn c)) = false →
      (qs.validateQuery parsed).2 =
        some (.splitColumnNotIndexed qs.splitColumn table)) ∧
    (∀ (sel : Select) (node : SimpleTableExpr) (table : Table),
      parsed = .ok (.selectStmt sel) →
      sel.distinct = "" → sel.groupBy = none → sel.having = none →
      sel.orderBy = none → sel.limit = none → sel.lock = "" →
      sel.from_ = [TableExpr.aliased node] →
      getTableName node ≠ "" →
      qs.se (getTableName node) = some table →
      table.pkColumns ≠ [] →
      qs.splitColumn = "" →
      (qs.validateQuery parsed).1.splitColumn = (table.getPKColumn 0).name) := by
  refine ⟨?_, ?_, ?_⟩
  · cases parsed with
    | error e => simp [QuerySplitter.validateQuery, validateSpecOK]
    | ok stmt =>
      cases stmt with
      | otherStmt n => simp [QuerySplitter.validateQuery, validateSpecOK]
      | selectStmt sel =>
        obtain ⟨d, fr, wh, g, hv, ob, li, lk⟩ := sel
        simp only [QuerySplitter.validateQuery, validateSpecOK]
        by_cases hc : (d != "" || g != none || hv != none ||
            fr.length != 1 || ob != none || li != none || lk != "") = true
        · rw [if_pos hc]
          simp only [Bool.or_eq_true, bne_iff_ne, ne_eq] at hc
          constructor
          · intro h; exact absurd h (by simp)
          · intro h
            rcases fr with _ | ⟨te, rest⟩
            · simp at h
            · rcases rest with _ | ⟨te2, r⟩
              · cases te with
                | aliased node => simp_all
                | joined m => simp at h
              · simp at h
        · rw [if_neg hc]
          have hc' : d = "" ∧ g = none ∧ hv = none ∧ fr.length = 1 ∧
              ob = none ∧ li = none ∧ lk = "" := by
            simpa [Bool.or_eq_true, bne_iff_ne, ne_eq, not_or, not_not,
              and_assoc] using hc
          obtain ⟨h1, h2, h3, h4, h5, h6, h7⟩ := hc'
          subst h1
          subst h2
          subst h3
          subst h5
          subst h6
          subst h7
          rcases fr with _ | ⟨te, rest⟩
          · simp at h4
          · rcases rest with _ | ⟨te2, r⟩
            · cases te with
              | joined m => simp
              | aliased node =>
                simp only [List.headD_cons]
                by_cases ht : getTableName node = ""
                · simp [ht]
                · simp only [ht, beq_iff_eq, if_neg, bne_iff_ne, ne_eq,
                    not_false_eq_true, bne_self_eq_false]
                  cases hse : qs.se (getTableName node) with
                  | none => simp [hse, ht]
                  | some table =>
                    simp only [hse]
                    by_cases hpk : table.pkColumns.length = 0
                    · simp [hpk, ht]
                    · rw [if_neg (by simpa using hpk)]
                      by_cases hcol : colIdentIsEmpty qs.splitColumn = true
                      · simp [hcol, ht, hpk]
                      · simp only [hcol, Bool.not_false, if_true,
                          Bool.false_eq_true, if_false]
                        by_cases hany : table.indexes.any
                            (fun ix => ix.columns.any
                              (fun c => colIdentEqual qs.splitColumn c)) = true
                        · simp [hany, ht, hpk, hcol]
                        · simp [hany, ht, hpk, hcol]
            · simp at h4
  · intro sel node table hp hd hg hh ho hl hk hfr hn hse hpk hcol hany
    subst hp
    simp only [QuerySplitter.validateQuery, hd, hg, hh, ho, hl, hk, hfr]
    rw [if_neg (by simp)]
    simp only [List.headD_cons]
    rw [if_neg (by simpa using hn)]
    simp only [hse]
    rw [if_neg (by simpa [List.length_eq_zero] using hpk)]
    rw [if_pos (by simpa [colIdentIsEmpty] using hcol)]
    rw [if_neg (by simp [hany])]
  · intro sel node table hp hd hg hh ho hl hk hfr hn hse hpk hcol
    subst hp
    simp only [QuerySplitter.validateQuery, hd, hg, hh, ho, hl, hk, hfr]
    rw [if_neg (by simp)]
    simp only [List.headD_cons]
    rw [if_neg (by simpa using hn)]
    simp only [hse]
    rw [if_neg (by simpa [List.length_eq_zero] using hpk)]
    rw [if_neg (by simp [colIdentIsEmpty, hcol])]

/-- A concrete schema table for the C5 witness: columns id, name;
primary key (id); one index on id. -/
def tableT : Table :=
  { columns := [⟨"id"⟩, ⟨"name"⟩], pkColumns := [0], indexes := [⟨["id"]⟩] }

/-- A concrete schema engine knowing only table t. -/
def seT : String → Option Table := fun n => if n = "t" then some tableT else none

/-- A concrete parsed SELECT over table t with no disallowed clauses. -/
def selT : Select :=
  { distinct := "", from_ := [.aliased (.tableName "t")], where_ := none,
    groupBy := none, having := none, orderBy := none, limit := none, lock := "" }

/-- Witness for C5: the concrete statement validates, and with no
requested split column the split column defaults to the first
primary-key column id. -/
theorem C5_witness :
    validateSpecOK (NewQuerySplitter "select * from t" (fun _ => none) "" 4 seT)
      (.ok (.selectStmt selT)) = true ∧
    ((NewQuerySplitter "select * from t" (fun _ => none) "" 4 seT).validateQuery
      (.ok (.selectStmt selT))).2 = none ∧
    ((NewQuerySplitter "select * from t" (fun _ => none) "" 4 seT).validateQuery
      (.ok (.selectStmt selT))).1.splitColumn = "id" := by
  refine ⟨by decide, ?_, ?_⟩
  · exact ((C5_validateQuery_iff
      (NewQuerySplitter "select * from t" (fun _ => none) "" 4 seT)
      (.ok (.selectStmt selT))).1).mpr (by decide)
  · exact (C5_validateQuery_iff
      (NewQuerySplitter "select * from t" (fun _ => none) "" 4 seT)
      (.ok (.selectStmt selT))).2.2 selT (.tableName "t") tableT rfl rfl rfl rfl
      rfl rfl rfl rfl (by decide) rfl (by decide) rfl

/-! ## C10 -/

/-- Every boundary value the calculators produce is non-null (they are
built by BuildValue from int64/uint64/float64/[]byte scalars). -/
theorem boundaries_not_null (qs : QuerySplitter) (t : ColumnType)
    (res : Option SQLResult) (qs1 : QuerySplitter) (bs : List Value)
    (h : qs.splitBoundaries t res = (qs1, .ok bs)) :
    ∀ v ∈ bs, v.isNull = false := by
  intro v hv
  have hbs : (qs.splitBoundaries t res).2 = .ok bs := by rw [h]
  clear h
  cases t <;>
    simp only [QuerySplitter.splitBoundaries, QuerySplitter.splitBoundariesIntColumn,
      QuerySplitter.splitBoundariesUintColumn, QuerySplitter.splitBoundariesFloatColumn,
      QuerySplitter.splitBoundariesStringColumn] at hbs <;>
    (repeat' split at hbs) <;>
    (try dsimp only at hbs) <;>
    simp only [Except.ok.injEq, reduceCtorEq] at hbs <;>
    (try cases hbs) <;>
    first
    | (simp only [List.mem_map] at hv
       obtain ⟨a, -, ha⟩ := hv
       subst ha
       rfl)
    | exact absurd hv (by simp)

theorem getD_append_lt {α : Type _} (l1 l2 : List α) (i : Nat) (d : α)
    (h : i < l1.length) : (l1 ++ l2).getD i d = l1.getD i d := by
  rw [List.getD_eq_getElem?_getD, List.getD_eq_getElem?_getD, List.getElem?_append]
  rw [if_pos h]

theorem getD_append_len {α : Type _} (l1 : List α) (x d : α) :
    (l1 ++ [x]).getD l1.length d = x := by
  rw [List.getD_eq_getElem?_getD, List.getElem?_append]
  rw [if_neg (lt_irrefl _)]
  simp

/-- The i-th split produced by the boundary walk: its WHERE clause and
bind map come from getWhereClause applied to the (previous, current)
boundary pair, starting from the given start value. -/
theorem splitLoop_getD (qs : QuerySplitter) (render : Select → String)
    (w : Option WhereNode) (dflt : QuerySplit) :
    ∀ (l : List Value) (s : Value) (i : Nat), i < l.length →
      (qs.splitLoop render w s l).getD i dflt =
        { sql := render { qs.sel with where_ :=
            (qs.getWhereClause w qs.bindVariables
              (if i = 0 then s else l.getD (i - 1) Value.null)
              (l.getD i Value.null)).1 },
          bindVariables := (qs.getWhereClause w qs.bindVariables
              (if i = 0 then s else l.getD (i - 1) Value.null)
              (l.getD i Value.null)).2,
          rowCount := qs.rowCount } := by
  intro l
  induction l with
  | nil => intro s i h; simp at h
  | cons a t ih =>
    intro s i h
    cases i with
    | zero => simp [QuerySplitter.splitLoop]
    | succ j =>
      simp only [QuerySplitter.splitLoop, List.getD_cons_succ]
      rw [ih a j (by simpa using h)]
      have hprev : (if j = 0 then a else t.getD (j - 1) Value.null) =
          (a :: t).getD j Value.null := by
        cases j with
        | zero => simp
        | succ m => simp
      have hcur : t.getD j Value.null = (a :: t).getD (j + 1) Value.null := by simp
      rw [hprev, hcur]
      simp

/-- What getWhereClause does to the bind map, key by key. -/
theorem getWhereClause_bind (qs : QuerySplitter) (w : Option WhereNode)
    (m : BindMap) (s e : Value) (k : String) :
    (qs.getWhereClause w m s e).2 k =
      if k = endBindVarName ∧ e.isNull = false then some e.toNative
      else if k = startBindVarName ∧ s.isNull = false then some s.toNative
      else m k := by
  unfold QuerySplitter.getWhereClause
  have hne : startBindVarName ≠ endBindVarName := by decide
  by_cases hs : s.isNull = true <;> by_cases he : e.isNull = true
  · simp [hs, he]
  · simp only [hs, Bool.true_and, eq_false_of_ne_true he, if_neg, Bool.and_false,
      Bool.false_eq_true, if_false, ite_true, bindInsert]
    by_cases hk : k = endBindVarName <;> simp [hk, hs, he, eq_false_of_ne_true he]
  · simp only [eq_false_of_ne_true hs, he, Bool.and_true, Bool.false_and,
      Bool.false_eq_true, if_false, ite_true, bindInsert]
    by_cases hk : k = startBindVarName <;> simp [hk, hs, he, eq_false_of_ne_true hs]
  · simp only [eq_false_of_ne_true hs, eq_false_of_ne_true he, Bool.and_self,
      Bool.false_eq_true, if_false, bindInsert]
    by_cases hk1 : k = endBindVarName
    · simp [hk1, eq_false_of_ne_true he]
    · by_cases hk2 : k = startBindVarName <;>
        simp [hk1, hk2, eq_false_of_ne_true hs, eq_false_of_ne_true he]

/-- C10: in the empty-boundaries fallback the single returned split
carries the caller's original bind-variable map with no synthetic
variables added; in the multi-boundary case every split's map agrees
with the original bindings on all other keys, the first split gains
only _splitquery_end, the last gains only _splitquery_start, and every
interior split gains both (provided the original map does not already
bind the two reserved names). -/
theorem C10_bind_maps :
    (∀ (qs : QuerySplitter) (render : Select → String) (t : ColumnType)
        (res : Option SQLResult) (qs1 : QuerySplitter),
      qs.splitBoundaries t res = (qs1, .ok []) →
      (qs.split render t res).2 =
        .ok [{ sql := qs.sql, bindVariables := qs.bindVariables, rowCount := 0 }]) ∧
    (∀ (qs : QuerySplitter) (render : Select → String) (t : ColumnType)
        (res : Option SQLResult) (qs1 : QuerySplitter) (bs : List Value),
      qs.splitBoundaries t res = (qs1, .ok bs) → bs ≠ [] →
      qs.bindVariables startBindVarName = none →
      qs.bindVariables endBindVarName = none →
      ∃ splits : List QuerySplit,
        (qs.split render t res).2 = .ok splits ∧
        splits.length = bs.length + 1 ∧
        ∀ i : Nat, i < splits.length →
          (∀ k : String, k ≠ startBindVarName → k ≠ endBindVarName →
            (splits.getD i ⟨"", fun _ => none, 0⟩).bindVariables k =
              qs.bindVariables k) ∧
          (splits.getD i ⟨"", fun _ => none, 0⟩).bindVariables startBindVarName =
            (if i = 0 then none
             else some ((bs.getD (i - 1) Value.null).toNative)) ∧
          (splits.getD i ⟨"", fun _ => none, 0⟩).bindVariables endBindVarName =
            (if i < bs.length then some ((bs.getD i Value.null).toNative)
             else none)) := by
  constructor
  · intro qs render t res qs1 h
    have hf := splitBoundaries_fst_fields qs t res
    rw [h] at hf
    rw [split_of_boundaries_empty qs render t res qs1 h, hf.2.1, hf.2.2.1]
  · intro qs render t res qs1 bs h hne hs he
    have hf := splitBoundaries_fst_fields qs t res
    rw [h] at hf
    obtain ⟨hsel, hsql, hbv, -, -⟩ := hf
    dsimp only at hsel hsql hbv
    have hnn := boundaries_not_null qs t res qs1 bs h
    have hmem : ∀ j : Nat, j < bs.length → (bs.getD j Value.null).isNull = false := by
      intro j hj
      have hg : bs.getD j Value.null = bs.get ⟨j, hj⟩ := by
        rw [List.getD_eq_getElem?_getD, List.getElem?_eq_getElem hj]
        rfl
      rw [hg]
      exact hnn _ (bs.get_mem j hj)
    have hlen0 : ¬ bs.length = 0 := by simpa [List.length_eq_zero] using hne
    have hA : (qs.split render t res).2 =
        .ok (qs1.splitLoop render qs1.sel.where_ Value.null (bs ++ [Value.null])) := by
      unfold QuerySplitter.split
      rw [h]
      dsimp only
      rw [if_neg hlen0]
    refine ⟨_, hA, ?_, ?_⟩
    · rw [splitLoop_length]
      simp
    · intro i hi
      rw [splitLoop_length] at hi
      simp only [List.length_append, List.length_singleton] at hi
      have hi' : i < (bs ++ [Value.null]).length := by
        simp only [List.length_append, List.length_singleton]
        omega
      rw [splitLoop_getD qs1 render qs1.sel.where_ _ (bs ++ [Value.null])
        Value.null i hi']
      dsimp only
      rw [hbv]
      have hnames : startBindVarName ≠ endBindVarName := by decide
      refine ⟨?_, ?_, ?_⟩
      · intro k hk1 hk2
        rw [getWhereClause_bind]
        simp [hk1, hk2]
      · by_cases hi0 : i = 0
        · subst hi0
          rw [getWhereClause_bind]
          rw [if_neg (fun hcon => absurd hcon.1 hnames)]
          simp [Value.isNull, hs]
        · have hi1 : i - 1 < bs.length := by omega
          rw [if_neg hi0, getD_append_lt _ _ _ _ hi1]
          rw [getWhereClause_bind]
          rw [if_neg (fun hcon => absurd hcon.1 hnames)]
          rw [if_pos ⟨rfl, hmem _ hi1⟩]
          rw [if_neg hi0]
      · by_cases hib : i < bs.length
        · rw [getD_append_lt _ _ _ _ hib]
          rw [getWhereClause_bind]
          rw [if_pos ⟨rfl, hmem _ hib⟩]
          rw [if_pos hib]
        · have hieq : i = bs.length := by omega
          subst hieq
          rw [getD_append_len]
          rw [getWhereClause_bind]
          rw [if_neg (by simp [Value.isNull])]
          rw [if_neg (fun hcon => absurd hcon.1 (Ne.symm hnames))]
          rw [if_neg hib]
          exact he

/-- Extract the split list from a successful split result. -/
def exceptSplitsD (x : Except GoError (List QuerySplit)) : List QuerySplit :=
  match x with
  | .ok l => l
  | .error _ => []

/-- The splitter used by the C10 witness. -/
def qsW : QuerySplitter :=
  NewQuerySplitter "select * from t" (fun _ => none) "" 4 (fun _ => none)

/-- The min/max result used by the C10 witness. -/
def resW : Option SQLResult := some ⟨[[Value.int 0, Value.int 100]]⟩

/-- Default QuerySplit for getD. -/
def dfltSplit : QuerySplit := ⟨"", fun _ => none, 0⟩

/-- Witness for C10: 4 splits from boundaries 25/50/75; the first split
binds only the end variable, interior splits bind both, the last binds
only the start variable. -/
theorem C10_witness :
    (exceptSplitsD ((qsW.split (fun _ => "") ColumnType.signed resW).2)).length = 4 ∧
    ((exceptSplitsD ((qsW.split (fun _ => "") ColumnType.signed resW).2)).getD 0
      dfltSplit).bindVariables startBindVarName = none ∧
    ((exceptSplitsD ((qsW.split (fun _ => "") ColumnType.signed resW).2)).getD 0
      dfltSplit).bindVariables endBindVarName = some (GoNative.int 25) ∧
    ((exceptSplitsD ((qsW.split (fun _ => "") ColumnType.signed resW).2)).getD 1
      dfltSplit).bindVariables startBindVarName = some (GoNative.int 25) ∧
    ((exceptSplitsD ((qsW.split (fun _ => "") ColumnType.signed resW).2)).getD 1
      dfltSplit).bindVariables endBindVarName = some (GoNative.int 50) ∧
    ((exceptSplitsD ((qsW.split (fun _ => "") ColumnType.signed resW).2)).getD 3
      dfltSplit).bindVariables startBindVarName = some (GoNative.int 75) ∧
    ((exceptSplitsD ((qsW.split (fun _ => "") ColumnType.signed resW).2)).getD 3
      dfltSplit).bindVariables endBindVarName = none := by
  have hb : qsW.splitBoundaries ColumnType.signed resW =
      ((qsW.splitBoundaries ColumnType.signed resW).1,
       .ok [Value.int 25, Value.int 50, Value.int 75]) := rfl
  obtain ⟨splits, h1, h2, -⟩ := C10_bind_maps.2 qsW (fun _ => "") ColumnType.signed resW
    ((qsW.splitBoundaries ColumnType.signed resW).1)
    [Value.int 25, Value.int 50, Value.int 75] hb (by simp) rfl rfl
  have hL : exceptSplitsD ((qsW.split (fun _ => "") ColumnType.signed resW).2) = splits := by
    rw [h1]
    rfl
  refine ⟨by rw [hL]; exact h2, rfl, rfl, rfl, rfl, rfl, rfl⟩
